import Mathlib

/-!
Shallow embedding of the Prism video player engine
(src/Native/src/prism_ffmpeg.c) together with proofs about its
queueing, backpressure, presentation and lifecycle behaviour.

Modelling conventions: C machine integers become Int, C doubles
carrying presentation timestamps become rationals, pixel buffers are
abstracted to Nat identities, and the two fixed arrays (the 8-entry
video frame queue and the audio sample ring) become functions from Nat,
indexed exactly the way the C code indexes them.  Each definition
follows one function or block of the C source, cited by line number.
FFmpeg itself (demux/decode/convert) is the external collaborator; its
outputs enter the model as the Packet type fed to the decode worker.
-/

namespace Prism

/-- PrismState enumeration from the public header. -/
inductive PState
  | idle | opening | ready | playing | paused | stopped | error | endOfFile
deriving DecidableEq, Repr

/-- PrismError enumeration from the public header. -/
inductive PrismError
  | ok | invalidPlayer | openFailed | noStream | noAudioStream | codecNotFound
  | codecOpenFailed | decodeFailed | seekFailed | outOfMemory | notReady
  | invalidParameter
deriving DecidableEq, Repr

/-- VideoFrameEntry (prism_ffmpeg.c lines 43-50); the owned pixel buffer
is abstracted to a Nat identity. -/
structure VideoFrameEntry where
  data : Nat
  width : Int
  height : Int
  stride : Int
  pts : ℚ
  valid : Bool
deriving DecidableEq, Repr

def defaultEntry : VideoFrameEntry :=
  { data := 0, width := 0, height := 0, stride := 0, pts := 0, valid := false }

def VIDEO_QUEUE_SIZE : Int := 8

/-- The mutable fields of struct PrismPlayer (lines 52-147) that the
decode/queue/synchronization engine touches.  The display buffer is an
Option because the C pointer starts NULL and is allocated on first use;
has_format_ctx and has_audio_buffer model NULL-ness of those pointers;
video_callback records whether a frame callback is registered. -/
structure PlayerState where
  video_queue : Nat → VideoFrameEntry
  video_queue_write : Int
  video_queue_read : Int
  video_queue_count : Int
  display_buffer : Option Nat
  display_width : Int
  display_height : Int
  display_stride : Int
  display_pts : ℚ
  display_ready : Bool
  audio_buffer : Nat → ℚ
  has_audio_buffer : Bool
  audio_buffer_size : Int
  audio_write_pos : Int
  audio_read_pos : Int
  audio_available : Int
  state : PState
  last_error : PrismError
  playback_start_time : Int
  start_pts : ℚ
  current_pts : ℚ
  video_pts : ℚ
  audio_pts : ℚ
  speed : ℚ
  is_live : Bool
  loop : Bool
  first_frame_decoded : Bool
  video_stream_idx : Int
  audio_stream_idx : Int
  has_format_ctx : Bool
  video_callback : Bool
  stop_requested : Bool
  video_width : Int
  video_height : Int
  video_stride : Int

/-- Lines 336-342: in the decode worker, for live streams with the
video queue at capacity, drop the oldest frame (mark the slot invalid,
advance the read cursor, decrement the count). -/
def videoQueueEvictOldest (st : PlayerState) : PlayerState :=
  if st.is_live ∧ st.video_queue_count ≥ VIDEO_QUEUE_SIZE then
    { st with
      video_queue := Function.update st.video_queue st.video_queue_read.toNat
        { st.video_queue st.video_queue_read.toNat with valid := false },
      video_queue_read := (st.video_queue_read + 1) % VIDEO_QUEUE_SIZE,
      video_queue_count := st.video_queue_count - 1 }
  else st

/-- Lines 344-364: insert the converted frame at the write cursor when
the queue is below capacity; otherwise the frame is silently dropped. -/
def videoQueueInsert (st : PlayerState) (framePts : ℚ) (d : Nat) : PlayerState :=
  if st.video_queue_count < VIDEO_QUEUE_SIZE then
    { st with
      video_queue := Function.update st.video_queue st.video_queue_write.toNat
        { data := d, width := st.video_width, height := st.video_height,
          stride := st.video_stride, pts := framePts, valid := true },
      video_queue_write := (st.video_queue_write + 1) % VIDEO_QUEUE_SIZE,
      video_queue_count := st.video_queue_count + 1 }
  else st

/-- Lines 334-371: the decode worker video push (queue section under
the queue lock followed by the pts update under the state lock). -/
def pushVideoFrame (st : PlayerState) (framePts : ℚ) (d : Nat) : PlayerState :=
  let st1 := videoQueueInsert (videoQueueEvictOldest st) framePts d
  { st1 with video_pts := framePts, current_pts := framePts }

/-- Lines 405-415: for live streams, if the ring would overflow, drop
old samples (advance the read cursor, reduce the available count) to
make room for total_samples new ones. -/
def audioDropOldestIfNeeded (st : PlayerState) (total_samples : Int) : PlayerState :=
  if st.is_live then
    if st.audio_buffer_size - st.audio_available < total_samples then
      { st with
        audio_read_pos := (st.audio_read_pos + (total_samples - (st.audio_buffer_size - st.audio_available))) % st.audio_buffer_size,
        audio_available := st.audio_available - (total_samples - (st.audio_buffer_size - st.audio_available)) }
    else st
  else st

/-- Lines 417-423, loop body: one guarded sample store into the ring. -/
def audioWriteStep (st : PlayerState) (s : ℚ) : PlayerState :=
  if st.audio_available < st.audio_buffer_size then
    { st with
      audio_buffer := Function.update st.audio_buffer st.audio_write_pos.toNat s,
      audio_write_pos := (st.audio_write_pos + 1) % st.audio_buffer_size,
      audio_available := st.audio_available + 1 }
  else st

/-- Lines 417-423: the per-sample write loop. -/
def audioWriteLoop (st : PlayerState) (samples : List ℚ) : PlayerState :=
  samples.foldl audioWriteStep st

/-- Lines 399-424: the decode worker audio write (live-mode drop of old
samples, then the guarded write loop). -/
def audioWrite (st : PlayerState) (samples : List ℚ) : PlayerState :=
  audioWriteLoop (audioDropOldestIfNeeded st (samples.length : Int)) samples

/-- Read loop of prism_player_get_audio_samples (lines 1334-1337),
accumulating the copied samples. -/
def audioReadLoop : Nat → PlayerState → List ℚ → PlayerState × List ℚ
  | 0, st, out => (st, out)
  | k + 1, st, out =>
      audioReadLoop k
        { st with audio_read_pos := (st.audio_read_pos + 1) % st.audio_buffer_size }
        (out ++ [st.audio_buffer st.audio_read_pos.toNat])

/-- prism_player_get_audio_samples (lines 1325-1342): copy
min(available, max_samples) samples in FIFO order, advance the read
cursor, reduce the available count, return the count copied. -/
def getAudioSamples (st : PlayerState) (max_samples : Int) : PlayerState × Int × List ℚ :=
  if ¬st.has_audio_buffer then (st, 0, [])
  else
    let to_copy := if st.audio_available < max_samples then st.audio_available else max_samples
    let res := audioReadLoop to_copy.toNat st []
    ({ res.1 with audio_available := st.audio_available - to_copy }, to_copy, res.2)

/-- Lines 1134-1135: wall-clock playback position,
start_pts + elapsed_seconds * speed, with now in microseconds. -/
def playbackTime (st : PlayerState) (now : Int) : ℚ :=
  st.start_pts + (((now - st.playback_start_time : Int) : ℚ) / 1000000) * st.speed

/-- VOD branch of prism_player_update (lines 1203-1258).  The fuel is
the queue count on entry; every non-breaking iteration decrements the
count by one, so this bound is exact.  The third component records the
pts values passed to the registered video callback. -/
def vodLoop : Nat → PlayerState → ℚ → PlayerState × Int × List ℚ
  | 0, st, _ => (st, 0, [])
  | f + 1, st, playback_time =>
    if st.video_queue_count > 0 then
      let entry := st.video_queue st.video_queue_read.toNat
      if ¬entry.valid then
        vodLoop f
          { st with
            video_queue_read := (st.video_queue_read + 1) % VIDEO_QUEUE_SIZE,
            video_queue_count := st.video_queue_count - 1 } playback_time
      else
        if entry.pts - playback_time ≤ (16 : ℚ) / 1000 then
          ({ st with
              display_buffer := some entry.data,
              display_width := entry.width,
              display_height := entry.height,
              display_stride := entry.stride,
              display_pts := entry.pts,
              display_ready := true,
              video_queue := Function.update st.video_queue st.video_queue_read.toNat
                { entry with valid := false },
              video_queue_read := (st.video_queue_read + 1) % VIDEO_QUEUE_SIZE,
              video_queue_count := st.video_queue_count - 1,
              video_pts := entry.pts,
              current_pts := entry.pts },
            1,
            if st.video_callback then [entry.pts] else [])
        else (st, 0, [])
    else (st, 0, [])

/-- Marking a previously retained queue slot invalid through the
newest_entry pointer (line 1155). -/
def invalidateSlot (st : PlayerState) (j : Int) : PlayerState :=
  { st with
    video_queue := Function.update st.video_queue j.toNat
      { st.video_queue j.toNat with valid := false } }

/-- One iteration body of the live drain loop (lines 1149-1162): if the
entry under the read cursor is valid, discard the previously retained
entry (if any) and retain this index. -/
def liveDrainStep (st : PlayerState) (newest : Option Int) : PlayerState × Option Int :=
  if (st.video_queue st.video_queue_read.toNat).valid then
    ((match newest with
      | some j => invalidateSlot st j
      | none => st), some st.video_queue_read)
  else (st, newest)

/-- Live branch drain loop of prism_player_update (lines 1148-1163):
walk the whole queue, retaining only the index of the most recently
produced valid entry and invalidating every previously retained one. -/
def liveDrainLoop : Nat → PlayerState → Option Int → PlayerState × Option Int
  | 0, st, newest => (st, newest)
  | f + 1, st, newest =>
    if st.video_queue_count > 0 then
      liveDrainLoop f
        { (liveDrainStep st newest).1 with
          video_queue_read := ((liveDrainStep st newest).1.video_queue_read + 1) % VIDEO_QUEUE_SIZE,
          video_queue_count := (liveDrainStep st newest).1.video_queue_count - 1 }
        (liveDrainStep st newest).2
    else (st, newest)

/-- Live branch display step of prism_player_update (lines 1166-1199):
copy the retained newest entry into the display slot, mark it ready,
advance current/video pts and fire the callback if registered. -/
def liveDisplay (st : PlayerState) (newest : Option Int) : PlayerState × Int × List ℚ :=
  match newest with
  | none => (st, 0, [])
  | some idx =>
    let entry := st.video_queue idx.toNat
    ({ st with
        display_buffer := some entry.data,
        display_width := entry.width,
        display_height := entry.height,
        display_stride := entry.stride,
        display_pts := entry.pts,
        display_ready := true,
        video_queue := Function.update st.video_queue idx.toNat { entry with valid := false },
        video_pts := entry.pts,
        current_pts := entry.pts },
      1,
      if st.video_callback then [entry.pts] else [])

/-- prism_player_update (lines 1118-1264).  delta_time is accepted and
ignored exactly as in the C source; now is av_gettime in microseconds.
Returns the new state, frames_ready, and the pts values passed to the
video callback. -/
def update (st : PlayerState) (_delta_time : ℚ) (now : Int) : PlayerState × Int × List ℚ :=
  if st.state ≠ PState.playing ∧ st.state ≠ PState.endOfFile then (st, 0, [])
  else if st.is_live then
    liveDisplay (liveDrainLoop st.video_queue_count.toNat st none).1
      (liveDrainLoop st.video_queue_count.toNat st none).2
  else
    vodLoop st.video_queue_count.toNat st (playbackTime st now)

/-- prism_player_get_video_frame (lines 1266-1289): return the display
slot contents only when the ready flag is set and the buffer exists,
and clear the ready flag on a successful read. -/
def getVideoFrame (st : PlayerState) : PlayerState × Option (Nat × Int × Int × Int) :=
  if ¬st.display_ready ∨ st.display_buffer = none then (st, none)
  else
    ({ st with display_ready := false },
      st.display_buffer.map fun buf =>
        (buf, st.display_width, st.display_height, st.display_stride))

/-- prism_player_play (lines 883-910): fail with NotReady unless the
state is Ready, Paused or Stopped; otherwise anchor the playback clock
and transition to Playing. -/
def play (st : PlayerState) (now : Int) : PlayerState × PrismError :=
  if st.state ≠ PState.ready ∧ st.state ≠ PState.paused ∧ st.state ≠ PState.stopped then
    (st, PrismError.notReady)
  else
    ({ st with
        playback_start_time := now,
        start_pts := st.current_pts,
        state := PState.playing }, PrismError.ok)

/-- prism_player_pause (lines 912-926): a no-op unless Playing. -/
def pause (st : PlayerState) : PlayerState × PrismError :=
  (if st.state = PState.playing then { st with state := PState.paused } else st,
   PrismError.ok)

/-- The queue-clearing block shared by close, stop and seek
(e.g. lines 954-966): reset cursors and counts, invalidate the 8 queue
slots, clear the display-ready flag and empty the audio ring. -/
def clearQueues (st : PlayerState) : PlayerState :=
  { st with
    video_queue_write := 0,
    video_queue_read := 0,
    video_queue_count := 0,
    video_queue := fun i => if i < 8 then { st.video_queue i with valid := false } else st.video_queue i,
    display_ready := false,
    audio_available := 0,
    audio_write_pos := 0,
    audio_read_pos := 0 }

/-- prism_player_stop (lines 928-968); the collaborator seek/flush
calls are external and carry no model state. -/
def stop (st : PlayerState) : PlayerState :=
  clearQueues
    { st with current_pts := 0, first_frame_decoded := false, state := PState.stopped }

/-- prism_player_seek (lines 971-1031).  av_seek_ok models the result
of the external av_seek_frame call; the live check precedes every
mutation, so a live seek changes nothing. -/
def seek (st : PlayerState) (position_seconds : ℚ) (av_seek_ok : Bool) : PlayerState × PrismError :=
  if ¬st.has_format_ctx then (st, PrismError.invalidPlayer)
  else if st.is_live then (st, PrismError.seekFailed)
  else if ¬av_seek_ok then (st, PrismError.seekFailed)
  else
    (clearQueues
      { st with current_pts := position_seconds, first_frame_decoded := false },
     PrismError.ok)

/-- prism_player_close (lines 808-881): free everything, clear the
queues and return to Idle. -/
def close (st : PlayerState) : PlayerState :=
  clearQueues
    { st with
      has_format_ctx := false,
      has_audio_buffer := false,
      video_stream_idx := -1,
      audio_stream_idx := -1,
      state := PState.idle,
      first_frame_decoded := false }

/-- One unit of work handed to the decode worker by the external
collaborator: a decoded+converted video frame, a decoded+resampled
audio chunk, or end of stream. -/
inductive Packet
  | video (framePts : ℚ) (d : Nat)
  | audioChunk (apts : ℚ) (samples : List ℚ)
  | eof
deriving Repr

/-- One iteration of decoder_thread_func (lines 226-433): stop check,
idle poll when not Playing, the finite-media backpressure gate, then
packet handling (loop restart or EndOfFile on eof; clock anchoring,
queue push and pts update for video; ring write for audio).  Returns
the new state, whether the packet was consumed, and the pts of the
video frame decoded this iteration, if any. -/
def workerStep (st : PlayerState) (pkt : Packet) (now : Int) : PlayerState × Bool × Option ℚ :=
  if st.stop_requested then (st, false, none)
  else if st.state ≠ PState.playing then (st, false, none)
  else
    if ¬st.is_live ∧ st.video_queue_count ≥ VIDEO_QUEUE_SIZE - 1 ∧
        (st.audio_stream_idx < 0 ∨ st.audio_available > st.audio_buffer_size * 3 / 4) then
      (st, false, none)
    else
      match pkt with
      | Packet.eof =>
        if st.loop ∧ ¬st.is_live then
          ({ st with
              playback_start_time := now,
              start_pts := 0,
              current_pts := 0,
              first_frame_decoded := false }, true, none)
        else ({ st with state := PState.endOfFile }, true, none)
      | Packet.video framePts d =>
        let st1 :=
          if ¬st.first_frame_decoded then
            { st with
                first_frame_decoded := true,
                start_pts := framePts,
                playback_start_time := now }
          else st
        (pushVideoFrame st1 framePts d, true, some framePts)
      | Packet.audioChunk apts samples =>
        ((audioWrite { st with audio_pts := apts } samples), true, none)

/-- Run the decode worker for a bounded number of loop iterations over
a queue of pending collaborator packets; a gated or idle iteration
leaves its packet pending.  Returns the final state and the pts log of
all video frames decoded. -/
def workerRun : Nat → PlayerState → List Packet → Int → PlayerState × List ℚ
  | 0, st, _, _ => (st, [])
  | _ + 1, st, [], _ => (st, [])
  | f + 1, st, p :: rest, now =>
    let step := workerStep st p now
    let tail := workerRun f step.1 (if step.2.1 then rest else p :: rest) now
    (tail.1, step.2.2.toList ++ tail.2)

/-- Player state right after prism_player_create followed by a
successful prism_player_open_with_options (lines 532-567 and 606-806):
queues and display cleared, audio ring sized to two seconds of 48 kHz
stereo when an audio stream is present, state Ready. -/
def openedState (live has_video has_audio cb : Bool) (w h : Int) : PlayerState :=
  { video_queue := fun _ => defaultEntry,
    video_queue_write := 0,
    video_queue_read := 0,
    video_queue_count := 0,
    display_buffer := none,
    display_width := 0,
    display_height := 0,
    display_stride := 0,
    display_pts := 0,
    display_ready := false,
    audio_buffer := fun _ => 0,
    has_audio_buffer := has_audio,
    audio_buffer_size := if has_audio then 192000 else 0,
    audio_write_pos := 0,
    audio_read_pos := 0,
    audio_available := 0,
    state := PState.ready,
    last_error := PrismError.ok,
    playback_start_time := 0,
    start_pts := 0,
    current_pts := 0,
    video_pts := 0,
    audio_pts := 0,
    speed := 1,
    is_live := live,
    loop := false,
    first_frame_decoded := false,
    video_stream_idx := if has_video then 0 else -1,
    audio_stream_idx := if has_audio then (if has_video then 1 else 0) else -1,
    has_format_ctx := true,
    video_callback := cb,
    stop_requested := false,
    video_width := w,
    video_height := h,
    video_stride := w * 4 }

/-- States reachable from a freshly opened session through the public
operations and the two decode-worker buffer operations. -/
inductive Reachable : PlayerState → Prop
  | init (live has_video has_audio cb : Bool) (w h : Int) :
      Reachable (openedState live has_video has_audio cb w h)
  | pushOp {st} (framePts : ℚ) (d : Nat) :
      Reachable st → Reachable (pushVideoFrame st framePts d)
  | audioOp {st} (samples : List ℚ) :
      Reachable st → Reachable (audioWrite st samples)
  | updateOp {st} (dt : ℚ) (now : Int) :
      Reachable st → Reachable (update st dt now).1
  | getAudioOp {st} (max_samples : Int) :
      Reachable st → Reachable (getAudioSamples st max_samples).1
  | getFrameOp {st} :
      Reachable st → Reachable (getVideoFrame st).1
  | playOp {st} (now : Int) :
      Reachable st → Reachable (play st now).1
  | pauseOp {st} :
      Reachable st → Reachable (pause st).1
  | stopOp {st} :
      Reachable st → Reachable (stop st)
  | seekOp {st} (pos : ℚ) (ok : Bool) :
      Reachable st → Reachable (seek st pos ok).1
  | closeOp {st} :
      Reachable st → Reachable (close st)

/-- Reachability restricted to documented use of the audio pull API:
prism_player_get_audio_samples is only ever called with a nonnegative
max_samples. -/
inductive ReachableSafe : PlayerState → Prop
  | init (live has_video has_audio cb : Bool) (w h : Int) :
      ReachableSafe (openedState live has_video has_audio cb w h)
  | pushOp {st} (framePts : ℚ) (d : Nat) :
      ReachableSafe st → ReachableSafe (pushVideoFrame st framePts d)
  | audioOp {st} (samples : List ℚ) :
      ReachableSafe st → ReachableSafe (audioWrite st samples)
  | updateOp {st} (dt : ℚ) (now : Int) :
      ReachableSafe st → ReachableSafe (update st dt now).1
  | getAudioOp {st} (max_samples : Int) (hmax : 0 ≤ max_samples) :
      ReachableSafe st → ReachableSafe (getAudioSamples st max_samples).1
  | getFrameOp {st} :
      ReachableSafe st → ReachableSafe (getVideoFrame st).1
  | playOp {st} (now : Int) :
      ReachableSafe st → ReachableSafe (play st now).1
  | pauseOp {st} :
      ReachableSafe st → ReachableSafe (pause st).1
  | stopOp {st} :
      ReachableSafe st → ReachableSafe (stop st)
  | seekOp {st} (pos : ℚ) (ok : Bool) :
      ReachableSafe st → ReachableSafe (seek st pos ok).1
  | closeOp {st} :
      ReachableSafe st → ReachableSafe (close st)

/-- The bound invariant of the two shared buffers, as stated in the
spec: the video queue count stays within capacity and the audio ring
available count stays within the ring size. -/
def QueueBounds (st : PlayerState) : Prop :=
  0 ≤ st.video_queue_count ∧ st.video_queue_count ≤ VIDEO_QUEUE_SIZE ∧
  0 ≤ st.audio_available ∧ st.audio_available ≤ st.audio_buffer_size

instance (st : PlayerState) : Decidable (QueueBounds st) := by
  unfold QueueBounds; infer_instance

/-! Concrete states and packet streams used by scenario conjuncts,
counterexamples and witnesses. -/

/-- A freshly opened live video-only session set playing. -/
def liveSt : PlayerState := (play (openedState true true false false 2 2) 0).1

/-- Back-to-back decode-worker pushes of frames with the given pts. -/
def pushSeq (st : PlayerState) (l : List ℚ) : PlayerState :=
  l.foldl (fun s p => pushVideoFrame s p 0) st

/-- The pts sequence of ten frames decoded back to back. -/
def tenPts : List ℚ := [1, 2, 3, 4, 5, 6, 7, 8, 9, 10]

/-- A freshly opened finite session with an audio stream, set playing;
its audio ring is empty, so the backpressure audio condition is false. -/
def finiteAudioSt : PlayerState := (play (openedState false true true false 2 2) 0).1

/-- A freshly opened finite video-only session set playing; with no
audio stream the backpressure audio condition is true. -/
def finiteNoAudioSt : PlayerState := (play (openedState false true false false 2 2) 0).1

/-- Ten pending video packets with pts 1..10, decoded back to back. -/
def tenFrames : List Packet :=
  [Packet.video 1 1, Packet.video 2 2, Packet.video 3 3, Packet.video 4 4,
   Packet.video 5 5, Packet.video 6 6, Packet.video 7 7, Packet.video 8 8,
   Packet.video 9 9, Packet.video 10 10]

/-- A small live state whose audio ring (size 4) holds 3 samples. -/
def smallRingSt : PlayerState :=
  { openedState true true true false 2 2 with audio_buffer_size := 4, audio_available := 3 }

/-- A state whose display slot holds an unread ready frame. -/
def readySlotSt : PlayerState :=
  { openedState false true false false 2 2 with
    display_buffer := some 7, display_ready := true, display_pts := 1 }

/-! Helper lemmas about the audio write loop. -/

theorem audioWriteStep_size (st : PlayerState) (s : ℚ) :
    (audioWriteStep st s).audio_buffer_size = st.audio_buffer_size := by
  unfold audioWriteStep; split <;> rfl

theorem audioWriteStep_count (st : PlayerState) (s : ℚ) :
    (audioWriteStep st s).video_queue_count = st.video_queue_count := by
  unfold audioWriteStep; split <;> rfl

theorem audioWriteStep_avail (st : PlayerState) (s : ℚ) :
    (audioWriteStep st s).audio_available =
      if st.audio_available < st.audio_buffer_size then st.audio_available + 1
      else st.audio_available := by
  unfold audioWriteStep
  split
  · simp_all
  · simp_all

theorem audioWriteLoop_spec (samples : List ℚ) : ∀ st : PlayerState,
    (audioWriteLoop st samples).audio_buffer_size = st.audio_buffer_size ∧
    (audioWriteLoop st samples).video_queue_count = st.video_queue_count ∧
    (audioWriteLoop st samples).audio_available =
      (if st.audio_buffer_size ≤ st.audio_available then st.audio_available
       else min (st.audio_available + (samples.length : Int)) st.audio_buffer_size) := by
  induction samples with
  | nil =>
    intro st
    refine ⟨rfl, rfl, ?_⟩
    show st.audio_available = _
    split
    · rfl
    · simp
      omega
  | cons s rest ih =>
    intro st
    have hcons : audioWriteLoop st (s :: rest) = audioWriteLoop (audioWriteStep st s) rest := rfl
    rw [hcons]
    refine ⟨(ih _).1.trans (audioWriteStep_size st s),
            (ih _).2.1.trans (audioWriteStep_count st s), ?_⟩
    rw [(ih _).2.2, audioWriteStep_avail, audioWriteStep_size]
    simp only [List.length_cons]
    push_cast
    split_ifs <;> omega

theorem audioDrop_size (st : PlayerState) (n : Int) :
    (audioDropOldestIfNeeded st n).audio_buffer_size = st.audio_buffer_size := by
  unfold audioDropOldestIfNeeded
  split
  · split <;> rfl
  · rfl

theorem audioDrop_count (st : PlayerState) (n : Int) :
    (audioDropOldestIfNeeded st n).video_queue_count = st.video_queue_count := by
  unfold audioDropOldestIfNeeded
  split
  · split <;> rfl
  · rfl

/-! Claim theorems, C5 through C10 group. -/

/-- C5: a live push onto a full (count = 8) video queue first evicts
the oldest entry (read cursor advanced, count decremented, slot marked
invalid) and then inserts the new entry at the write cursor; in the
ten-frame live scenario the queue retains exactly frames 3..10 in
production order and frames 1 and 2 are gone; a finite push onto a
full queue silently drops the new frame, touching only the pts fields. -/
theorem C5_live_push_evicts_oldest :
    (∀ (st : PlayerState) (framePts : ℚ) (d : Nat),
      st.is_live = true → st.video_queue_count = 8 →
      videoQueueEvictOldest st =
        { st with
          video_queue := Function.update st.video_queue st.video_queue_read.toNat
            { st.video_queue st.video_queue_read.toNat with valid := false },
          video_queue_read := (st.video_queue_read + 1) % VIDEO_QUEUE_SIZE,
          video_queue_count := 7 } ∧
      pushVideoFrame st framePts d =
        { st with
          video_queue := Function.update
            (Function.update st.video_queue st.video_queue_read.toNat
              { st.video_queue st.video_queue_read.toNat with valid := false })
            st.video_queue_write.toNat
            { data := d, width := st.video_width, height := st.video_height,
              stride := st.video_stride, pts := framePts, valid := true },
          video_queue_write := (st.video_queue_write + 1) % VIDEO_QUEUE_SIZE,
          video_queue_read := (st.video_queue_read + 1) % VIDEO_QUEUE_SIZE,
          video_queue_count := 8,
          video_pts := framePts,
          current_pts := framePts }) ∧
    ((pushSeq liveSt tenPts).video_queue_count = 8 ∧
      (pushSeq liveSt tenPts).video_queue_read = 2 ∧
      (List.range 8).map
          (fun k => ((pushSeq liveSt tenPts).video_queue ((2 + k) % 8)).pts) =
        [3, 4, 5, 6, 7, 8, 9, 10] ∧
      (∀ k : Fin 8, ((pushSeq liveSt tenPts).video_queue ((2 + (k : Nat)) % 8)).valid = true) ∧
      (∀ i : Fin 8,
        ((pushSeq liveSt tenPts).video_queue (i : Nat)).pts ≠ 1 ∧
        ((pushSeq liveSt tenPts).video_queue (i : Nat)).pts ≠ 2)) ∧
    (∀ (st : PlayerState) (framePts : ℚ) (d : Nat),
      st.is_live = false → st.video_queue_count = 8 →
      pushVideoFrame st framePts d =
        { st with video_pts := framePts, current_pts := framePts }) := by
  refine ⟨?_, by decide, ?_⟩
  · intro st framePts d hlive hcount
    have hcond : st.is_live ∧ st.video_queue_count ≥ VIDEO_QUEUE_SIZE := by
      refine ⟨by simp [hlive], ?_⟩
      rw [hcount]
      decide
    have hevict : videoQueueEvictOldest st =
        { st with
          video_queue := Function.update st.video_queue st.video_queue_read.toNat
            { st.video_queue st.video_queue_read.toNat with valid := false },
          video_queue_read := (st.video_queue_read + 1) % VIDEO_QUEUE_SIZE,
          video_queue_count := 7 } := by
      unfold videoQueueEvictOldest
      rw [if_pos hcond, hcount]
      norm_num
    refine ⟨hevict, ?_⟩
    unfold pushVideoFrame
    rw [hevict]
    unfold videoQueueInsert
    rw [if_pos (show (7 : Int) < VIDEO_QUEUE_SIZE by decide)]
    rfl
  · intro st framePts d hlive hcount
    unfold pushVideoFrame videoQueueEvictOldest
    rw [if_neg (show ¬_ by simp [hlive])]
    unfold videoQueueInsert
    rw [if_neg (show ¬st.video_queue_count < VIDEO_QUEUE_SIZE by rw [hcount]; decide)]

/-- C5 witness: the universal conjuncts applied to the concrete full
live queue reached by eight pushes, and to its finite twin. -/
theorem C5_witness :
    (pushVideoFrame (pushSeq liveSt [1, 2, 3, 4, 5, 6, 7, 8]) 9 9).video_queue_count = 8 ∧
    (pushVideoFrame { pushSeq liveSt [1, 2, 3, 4, 5, 6, 7, 8] with is_live := false } 9 9) =
      { { pushSeq liveSt [1, 2, 3, 4, 5, 6, 7, 8] with is_live := false } with
          video_pts := 9, current_pts := 9 } := by
  constructor
  · rw [((C5_live_push_evicts_oldest.1 (pushSeq liveSt [1, 2, 3, 4, 5, 6, 7, 8]) 9 9
      (by decide) (by decide)).2)]
  · exact C5_live_push_evicts_oldest.2.2
      { pushSeq liveSt [1, 2, 3, 4, 5, 6, 7, 8] with is_live := false } 9 9 rfl (by decide)

/-- C6: a live audio write that does not fit first discards exactly the
shortfall of oldest samples (read cursor advanced by the shortfall,
available count reduced by it), then stores every incoming sample (each
store raises the available count by one, so the difference counts the
stored samples: none are rejected), leaving the ring exactly full. -/
theorem C6_live_audio_write_never_rejects (st : PlayerState) (samples : List ℚ)
    (hlive : st.is_live = true)
    (_h0 : 0 ≤ st.audio_available) (h1 : st.audio_available ≤ st.audio_buffer_size)
    (hfull : st.audio_buffer_size - st.audio_available < (samples.length : Int)) :
    (audioDropOldestIfNeeded st (samples.length : Int)).audio_read_pos =
      (st.audio_read_pos + ((samples.length : Int) - (st.audio_buffer_size - st.audio_available)))
        % st.audio_buffer_size ∧
    (audioDropOldestIfNeeded st (samples.length : Int)).audio_available =
      st.audio_available - ((samples.length : Int) - (st.audio_buffer_size - st.audio_available)) ∧
    (audioWrite st samples).audio_available -
      (audioDropOldestIfNeeded st (samples.length : Int)).audio_available = (samples.length : Int) ∧
    (audioWrite st samples).audio_available = st.audio_buffer_size := by
  have hdrop : audioDropOldestIfNeeded st (samples.length : Int) =
      { st with
        audio_read_pos := (st.audio_read_pos +
          ((samples.length : Int) - (st.audio_buffer_size - st.audio_available))) % st.audio_buffer_size,
        audio_available := st.audio_available -
          ((samples.length : Int) - (st.audio_buffer_size - st.audio_available)) } := by
    unfold audioDropOldestIfNeeded
    rw [if_pos (by simp [hlive]), if_pos hfull]
  have hlen : (0 : Int) < (samples.length : Int) := by omega
  have hloop := (audioWriteLoop_spec samples (audioDropOldestIfNeeded st (samples.length : Int))).2.2
  have hsize := audioDrop_size st (samples.length : Int)
  have havail_d : (audioDropOldestIfNeeded st (samples.length : Int)).audio_available =
      st.audio_available - ((samples.length : Int) - (st.audio_buffer_size - st.audio_available)) := by
    rw [hdrop]
  have hW : (audioWrite st samples).audio_available = st.audio_buffer_size := by
    unfold audioWrite
    rw [hloop, hsize, havail_d]
    split_ifs <;> omega
  exact ⟨by rw [hdrop], havail_d, by rw [hW, havail_d]; omega, hW⟩

/-- C6 witness: a size-4 live ring holding 3 samples accepts a 3-sample
write, ending exactly full. -/
theorem C6_witness :
    (audioWrite smallRingSt [1, 2, 3]).audio_available = smallRingSt.audio_buffer_size :=
  (C6_live_audio_write_never_rejects smallRingSt [1, 2, 3] rfl (by decide) (by decide)
    (by decide)).2.2.2

/-- C7: the pull accessor returns the display slot contents exactly
when the ready flag is set (given the slot invariant that a ready slot
has an allocated buffer), clears the ready flag on a successful read,
and two consecutive calls with no pump tick in between can never both
return a frame. -/
theorem C7_get_frame_at_most_once (st : PlayerState)
    (hinv : st.display_ready = true → st.display_buffer ≠ none) :
    ((getVideoFrame st).2.isSome ↔ st.display_ready = true) ∧
    (st.display_ready = true →
      (getVideoFrame st).2 = st.display_buffer.map
        (fun buf => (buf, st.display_width, st.display_height, st.display_stride)) ∧
      (getVideoFrame st).1.display_ready = false) ∧
    ((getVideoFrame st).2.isSome → (getVideoFrame (getVideoFrame st).1).2 = none) := by
  by_cases hr : st.display_ready = true
  · have hb := hinv hr
    obtain ⟨buf, hbuf⟩ := Option.ne_none_iff_exists.mp hb
    have hfr : getVideoFrame st =
        ({ st with display_ready := false },
          st.display_buffer.map
            (fun buf => (buf, st.display_width, st.display_height, st.display_stride))) := by
      unfold getVideoFrame
      rw [if_neg]
      push_neg
      exact ⟨by simp [hr], hb⟩
    refine ⟨?_, fun _ => ⟨by rw [hfr], by rw [hfr]⟩, ?_⟩
    · rw [hfr]; simp [hr, ← hbuf]
    · intro _
      rw [hfr]
      unfold getVideoFrame
      rw [if_pos]
      simp
  · have hrf : st.display_ready = false := by simpa using hr
    have hfr : getVideoFrame st = (st, none) := by
      unfold getVideoFrame
      rw [if_pos]
      left
      simp [hrf]
    rw [hfr]
    exact ⟨by simp [hrf], fun h => absurd h hr, fun h => by simp at h⟩

/-- C7 witness: a ready display slot delivers its frame once; the
repeat call gets nothing. -/
theorem C7_witness :
    ((getVideoFrame readySlotSt).2.isSome ↔ readySlotSt.display_ready = true) ∧
    ((getVideoFrame readySlotSt).2.isSome →
      (getVideoFrame (getVideoFrame readySlotSt).1).2 = none) :=
  ⟨(C7_get_frame_at_most_once readySlotSt (by decide)).1,
   (C7_get_frame_at_most_once readySlotSt (by decide)).2.2⟩

/-- C8: prism_player_play fails with NotReady, leaving the player
unchanged, unless the state is Ready, Paused or Stopped; in those three
states it anchors the playback clock at the current position and
transitions to Playing. -/
theorem C8_play_contract (st : PlayerState) (now : Int) :
    (st.state ≠ PState.ready ∧ st.state ≠ PState.paused ∧ st.state ≠ PState.stopped →
      play st now = (st, PrismError.notReady)) ∧
    (st.state = PState.ready ∨ st.state = PState.paused ∨ st.state = PState.stopped →
      play st now =
        ({ st with
            playback_start_time := now,
            start_pts := st.current_pts,
            state := PState.playing }, PrismError.ok)) := by
  constructor
  · intro h
    unfold play
    rw [if_pos h]
  · intro h
    unfold play
    rw [if_neg (show ¬_ by rcases h with h | h | h <;> simp [h])]

/-- C8 witness: play succeeds from Ready and fails from Opening. -/
theorem C8_witness :
    (play (openedState false true false false 2 2) 5).2 = PrismError.ok ∧
    (play { openedState false true false false 2 2 with state := PState.opening } 5).2 =
      PrismError.notReady := by
  constructor
  · rw [(C8_play_contract (openedState false true false false 2 2) 5).2 (Or.inl rfl)]
  · rw [(C8_play_contract { openedState false true false false 2 2 with state := PState.opening } 5).1
      ⟨by decide, by decide, by decide⟩]

/-- C9: on an open live session, seek fails immediately with SeekFailed
and returns the state entirely unchanged, whatever the external seek
call would have reported. -/
theorem C9_seek_live_fails (st : PlayerState) (pos : ℚ) (ok : Bool)
    (hctx : st.has_format_ctx = true) (hlive : st.is_live = true) :
    seek st pos ok = (st, PrismError.seekFailed) := by
  unfold seek
  rw [if_neg (by simp [hctx]), if_pos (by simp [hlive])]

/-- C9 witness: seeking a live opened session changes nothing. -/
theorem C9_witness :
    seek (openedState true true false false 2 2) 3 true =
      (openedState true true false false 2 2, PrismError.seekFailed) :=
  C9_seek_live_fails (openedState true true false false 2 2) 3 true rfl rfl

/-- C10: when the state is neither Playing nor EndOfFile, the pump
returns 0 and the whole player state (queues, ring, display slot) is
untouched, and no callback fires. -/
theorem C10_update_gated (st : PlayerState) (dt : ℚ) (now : Int)
    (h1 : st.state ≠ PState.playing) (h2 : st.state ≠ PState.endOfFile) :
    update st dt now = (st, 0, []) := by
  unfold update
  rw [if_pos ⟨h1, h2⟩]

/-! Loop lemmas for the presentation pump and the invariant machinery
for the buffer-bound claim. -/

theorem vodLoop_basic : ∀ (f : Nat) (st : PlayerState) (pt : ℚ),
    (vodLoop f st pt).1.video_queue_count ≤ st.video_queue_count ∧
    (0 ≤ st.video_queue_count → 0 ≤ (vodLoop f st pt).1.video_queue_count) ∧
    ((vodLoop f st pt).2.1 = 0 ∨ (vodLoop f st pt).2.1 = 1) ∧
    (vodLoop f st pt).1.audio_available = st.audio_available ∧
    (vodLoop f st pt).1.audio_buffer_size = st.audio_buffer_size := by
  intro f
  induction f with
  | zero => exact fun st pt => ⟨le_refl _, fun h => h, Or.inl rfl, rfl, rfl⟩
  | succ n ih =>
    intro st pt
    simp only [vodLoop]
    by_cases hc : st.video_queue_count > 0
    · rw [if_pos hc]
      by_cases hv : ¬(st.video_queue st.video_queue_read.toNat).valid = true
      · rw [if_pos hv]
        refine ⟨le_trans (ih _ pt).1
            (show st.video_queue_count - 1 ≤ st.video_queue_count by omega),
          fun _ => (ih _ pt).2.1 (show (0 : Int) ≤ st.video_queue_count - 1 by omega),
          (ih _ pt).2.2.1, (ih _ pt).2.2.2.1, (ih _ pt).2.2.2.2⟩
      · rw [if_neg hv]
        by_cases hd : (st.video_queue st.video_queue_read.toNat).pts - pt ≤ (16 : ℚ) / 1000
        · rw [if_pos hd]
          exact ⟨show st.video_queue_count - 1 ≤ st.video_queue_count by omega,
            fun _ => show (0 : Int) ≤ st.video_queue_count - 1 by omega,
            Or.inr rfl, rfl, rfl⟩
        · rw [if_neg hd]
          exact ⟨le_refl _, fun h => h, Or.inl rfl, rfl, rfl⟩
    · rw [if_neg hc]
      exact ⟨le_refl _, fun h => h, Or.inl rfl, rfl, rfl⟩

theorem liveDrainStep_fields (st : PlayerState) (newest : Option Int) :
    (liveDrainStep st newest).1.video_queue_count = st.video_queue_count ∧
    (liveDrainStep st newest).1.video_queue_read = st.video_queue_read ∧
    (liveDrainStep st newest).1.audio_available = st.audio_available ∧
    (liveDrainStep st newest).1.audio_buffer_size = st.audio_buffer_size ∧
    (liveDrainStep st newest).1.video_callback = st.video_callback := by
  unfold liveDrainStep invalidateSlot
  split_ifs
  · cases newest <;> exact ⟨rfl, rfl, rfl, rfl, rfl⟩
  · exact ⟨rfl, rfl, rfl, rfl, rfl⟩

theorem liveDrainLoop_basic : ∀ (f : Nat) (st : PlayerState) (newest : Option Int),
    (liveDrainLoop f st newest).1.video_queue_count ≤ st.video_queue_count ∧
    (0 ≤ st.video_queue_count → 0 ≤ (liveDrainLoop f st newest).1.video_queue_count) ∧
    (liveDrainLoop f st newest).1.audio_available = st.audio_available ∧
    (liveDrainLoop f st newest).1.audio_buffer_size = st.audio_buffer_size ∧
    (liveDrainLoop f st newest).1.video_callback = st.video_callback := by
  intro f
  induction f with
  | zero => exact fun st newest => ⟨le_refl _, fun h => h, rfl, rfl, rfl⟩
  | succ n ih =>
    intro st newest
    obtain ⟨e1, e2, e3, e4, e5⟩ := liveDrainStep_fields st newest
    simp only [liveDrainLoop]
    by_cases hc : st.video_queue_count > 0
    · rw [if_pos hc]
      refine ⟨le_trans (ih _ _).1 ?_, fun _ => (ih _ _).2.1 ?_,
        (ih _ _).2.2.1.trans e3, (ih _ _).2.2.2.1.trans e4, (ih _ _).2.2.2.2.trans e5⟩
      · show (liveDrainStep st newest).1.video_queue_count - 1 ≤ st.video_queue_count
        omega
      · show (0 : Int) ≤ (liveDrainStep st newest).1.video_queue_count - 1
        omega
    · rw [if_neg hc]
      exact ⟨le_refl _, fun h => h, rfl, rfl, rfl⟩

theorem liveDisplay_fields (st : PlayerState) (newest : Option Int) :
    (liveDisplay st newest).1.video_queue_count = st.video_queue_count ∧
    (liveDisplay st newest).1.audio_available = st.audio_available ∧
    (liveDisplay st newest).1.audio_buffer_size = st.audio_buffer_size := by
  cases newest <;> exact ⟨rfl, rfl, rfl⟩

/-- The invariant carried through the reachability induction: the
spec-stated queue bounds plus nonnegativity of the ring size. -/
def BoundsInv (st : PlayerState) : Prop :=
  QueueBounds st ∧ 0 ≤ st.audio_buffer_size

theorem openedState_boundsInv (live has_video has_audio cb : Bool) (w h : Int) :
    BoundsInv (openedState live has_video has_audio cb w h) := by
  cases has_audio
  · exact ⟨⟨le_refl 0, show (0 : Int) ≤ VIDEO_QUEUE_SIZE by decide, le_refl 0, le_refl 0⟩,
      le_refl 0⟩
  · exact ⟨⟨le_refl 0, show (0 : Int) ≤ VIDEO_QUEUE_SIZE by decide, le_refl 0,
      show (0 : Int) ≤ 192000 by decide⟩, show (0 : Int) ≤ 192000 by decide⟩

theorem pushVideoFrame_boundsInv (st : PlayerState) (p : ℚ) (d : Nat)
    (h : BoundsInv st) : BoundsInv (pushVideoFrame st p d) := by
  obtain ⟨⟨h1, h2, h3, h4⟩, h5⟩ := h
  unfold BoundsInv QueueBounds VIDEO_QUEUE_SIZE at *
  unfold pushVideoFrame videoQueueInsert videoQueueEvictOldest VIDEO_QUEUE_SIZE
  split_ifs <;> simp_all <;> omega

theorem audioDrop_avail (st : PlayerState) (n : Int) :
    (audioDropOldestIfNeeded st n).audio_available =
      (if st.is_live = true ∧ st.audio_buffer_size - st.audio_available < n
       then st.audio_available - (n - (st.audio_buffer_size - st.audio_available))
       else st.audio_available) := by
  unfold audioDropOldestIfNeeded
  by_cases hl : st.is_live = true
  · rw [if_pos hl]
    by_cases hs : st.audio_buffer_size - st.audio_available < n
    · rw [if_pos hs, if_pos ⟨hl, hs⟩]
    · rw [if_neg hs, if_neg (fun hand => hs hand.2)]
  · rw [if_neg hl, if_neg (fun hand => hl hand.1)]

theorem audioWrite_boundsInv (st : PlayerState) (samples : List ℚ)
    (h : BoundsInv st) : BoundsInv (audioWrite st samples) := by
  obtain ⟨⟨h1, h2, h3, h4⟩, h5⟩ := h
  have hlen : (0 : Int) ≤ (samples.length : Int) := Int.natCast_nonneg _
  have hup := audioWriteLoop_spec samples (audioDropOldestIfNeeded st (samples.length : Int))
  have hsz := audioDrop_size st (samples.length : Int)
  have hcnt := audioDrop_count st (samples.length : Int)
  have hav := audioDrop_avail st (samples.length : Int)
  unfold audioWrite
  refine ⟨⟨?_, ?_, ?_, ?_⟩, ?_⟩
  · rw [hup.2.1, hcnt]; exact h1
  · rw [hup.2.1, hcnt]; exact h2
  · rw [hup.2.2, hsz, hav]; split_ifs <;> omega
  · rw [hup.2.2, hup.1, hsz, hav]; split_ifs <;> omega
  · rw [hup.1, hsz]; exact h5

theorem audioReadLoop_keeps : ∀ (k : Nat) (st : PlayerState) (out : List ℚ),
    (audioReadLoop k st out).1.audio_available = st.audio_available ∧
    (audioReadLoop k st out).1.audio_buffer_size = st.audio_buffer_size ∧
    (audioReadLoop k st out).1.video_queue_count = st.video_queue_count := by
  intro k
  induction k with
  | zero => exact fun st out => ⟨rfl, rfl, rfl⟩
  | succ n ih => exact fun st out => ih _ _

theorem getAudioSamples_avail (st : PlayerState) (m : Int) :
    (getAudioSamples st m).1.audio_available =
      (if ¬st.has_audio_buffer = true then st.audio_available
       else st.audio_available - (if st.audio_available < m then st.audio_available else m)) ∧
    (getAudioSamples st m).1.audio_buffer_size = st.audio_buffer_size ∧
    (getAudioSamples st m).1.video_queue_count = st.video_queue_count := by
  unfold getAudioSamples
  by_cases hb : ¬st.has_audio_buffer = true
  · rw [if_pos hb, if_pos hb]
    exact ⟨rfl, rfl, rfl⟩
  · rw [if_neg hb, if_neg hb]
    exact ⟨rfl, (audioReadLoop_keeps _ st []).2.1, (audioReadLoop_keeps _ st []).2.2⟩

theorem getAudioSamples_boundsInv (st : PlayerState) (m : Int) (hm : 0 ≤ m)
    (h : BoundsInv st) : BoundsInv (getAudioSamples st m).1 := by
  obtain ⟨⟨h1, h2, h3, h4⟩, h5⟩ := h
  obtain ⟨g1, g2, g3⟩ := getAudioSamples_avail st m
  refine ⟨⟨?_, ?_, ?_, ?_⟩, ?_⟩
  · rw [g3]; exact h1
  · rw [g3]; exact h2
  · rw [g1]; split_ifs <;> omega
  · rw [g1, g2]; split_ifs <;> omega
  · rw [g2]; exact h5

theorem update_boundsInv (st : PlayerState) (dt : ℚ) (now : Int)
    (h : BoundsInv st) : BoundsInv (update st dt now).1 := by
  obtain ⟨⟨h1, h2, h3, h4⟩, h5⟩ := h
  unfold update
  split_ifs with hgate hlive
  · exact ⟨⟨h1, h2, h3, h4⟩, h5⟩
  · obtain ⟨d1, d2, d3, d4, d5⟩ :=
      liveDrainLoop_basic st.video_queue_count.toNat st none
    obtain ⟨l1, l2, l3⟩ :=
      liveDisplay_fields (liveDrainLoop st.video_queue_count.toNat st none).1
        (liveDrainLoop st.video_queue_count.toNat st none).2
    refine ⟨⟨?_, ?_, ?_, ?_⟩, ?_⟩
    · rw [l1]; exact d2 h1
    · rw [l1]; omega
    · rw [l2, d3]; exact h3
    · rw [l2, l3, d3, d4]; exact h4
    · rw [l3, d4]; exact h5
  · obtain ⟨v1, v2, _, v4, v5⟩ :=
      vodLoop_basic st.video_queue_count.toNat st (playbackTime st now)
    refine ⟨⟨v2 h1, ?_, ?_, ?_⟩, ?_⟩
    · omega
    · rw [v4]; exact h3
    · rw [v4, v5]; exact h4
    · rw [v5]; exact h5

theorem getVideoFrame_boundsInv (st : PlayerState) (h : BoundsInv st) :
    BoundsInv (getVideoFrame st).1 := by
  unfold getVideoFrame
  split_ifs <;> exact h

theorem play_boundsInv (st : PlayerState) (now : Int) (h : BoundsInv st) :
    BoundsInv (play st now).1 := by
  unfold play
  split_ifs <;> exact h

theorem pause_boundsInv (st : PlayerState) (h : BoundsInv st) :
    BoundsInv (pause st).1 := by
  unfold pause
  split_ifs <;> exact h

theorem clearQueues_boundsInv (st : PlayerState) (h : BoundsInv st) :
    BoundsInv (clearQueues st) :=
  ⟨⟨le_refl 0, show (0 : Int) ≤ VIDEO_QUEUE_SIZE by decide, le_refl 0, h.2⟩, h.2⟩

theorem stop_boundsInv (st : PlayerState) (h : BoundsInv st) :
    BoundsInv (stop st) :=
  clearQueues_boundsInv _ ⟨h.1, h.2⟩

theorem seek_boundsInv (st : PlayerState) (pos : ℚ) (ok : Bool) (h : BoundsInv st) :
    BoundsInv (seek st pos ok).1 := by
  unfold seek
  split_ifs <;> first
    | exact h
    | exact clearQueues_boundsInv _ ⟨h.1, h.2⟩

theorem close_boundsInv (st : PlayerState) (h : BoundsInv st) :
    BoundsInv (close st) :=
  clearQueues_boundsInv _ ⟨h.1, h.2⟩

theorem reachableSafe_boundsInv {st : PlayerState} (h : ReachableSafe st) :
    BoundsInv st := by
  induction h with
  | init live has_video has_audio cb w hh => exact openedState_boundsInv live has_video has_audio cb w hh
  | pushOp p d _ ih => exact pushVideoFrame_boundsInv _ p d ih
  | audioOp samples _ ih => exact audioWrite_boundsInv _ samples ih
  | updateOp dt now _ ih => exact update_boundsInv _ dt now ih
  | getAudioOp m hm _ ih => exact getAudioSamples_boundsInv _ m hm ih
  | getFrameOp _ ih => exact getVideoFrame_boundsInv _ ih
  | playOp now _ ih => exact play_boundsInv _ now ih
  | pauseOp _ ih => exact pause_boundsInv _ ih
  | stopOp _ ih => exact stop_boundsInv _ ih
  | seekOp pos ok _ ih => exact seek_boundsInv _ pos ok ih
  | closeOp _ ih => exact close_boundsInv _ ih

/-- C1 (amended): along any operation sequence in which every
get_audio_samples call requests a nonnegative sample count, every
reachable state keeps 0 ≤ video_queue_count ≤ 8 and
0 ≤ audio_available ≤ audio_buffer_size. -/
theorem C1_buffer_bounds_invariant (st : PlayerState) (h : ReachableSafe st) :
    QueueBounds st :=
  (reachableSafe_boundsInv h).1

/-- C1 witness: the invariant evaluated on a state reached by a push,
an audio write and an update. -/
theorem C1_witness :
    QueueBounds (update (audioWrite (pushVideoFrame
      (play (openedState true true true false 2 2) 0).1 1 1) [5, 6]) 0 0).1 :=
  C1_buffer_bounds_invariant _
    (ReachableSafe.updateOp 0 0 (ReachableSafe.audioOp [5, 6]
      (ReachableSafe.pushOp 1 1 (ReachableSafe.playOp 0
        (ReachableSafe.init true true true false 2 2)))))

/-- C1 counterexample: as stated, the claim fails — the operation list
includes get_audio_samples with an arbitrary int argument, and a call
with a negative max_samples (here -192001 on a fresh session) drives
audio_available above audio_buffer_size, because the C code subtracts
the negative to_copy from audio_available. -/
theorem C1_counterexample :
    Reachable (getAudioSamples (openedState false true true false 2 2) (-192001)).1 ∧
    ¬QueueBounds (getAudioSamples (openedState false true true false 2 2) (-192001)).1 :=
  ⟨Reachable.getAudioOp (-192001) (Reachable.init false true true false 2 2), by decide⟩

/-- C2 (amended): the finite-media backpressure gate makes the worker
sleep and retry without consuming a packet — hence without decoding —
whenever the video queue is within one slot of full AND the audio
condition holds (no audio stream, or the ring above 75 percent full);
consequently in the ten-frame no-consumer scenario with no audio
stream, only frames 1..7 are ever decoded over 20 worker iterations,
the queue count stays at 7 (never exceeding 8) and no frame is
dropped.  (Without the audio condition the gate does not engage; see
the counterexample.) -/
theorem C2_backpressure_gate :
    (∀ (st : PlayerState) (pkt : Packet) (now : Int),
      st.stop_requested = false → st.state = PState.playing → st.is_live = false →
      (st.audio_stream_idx < 0 ∨ st.audio_available > st.audio_buffer_size * 3 / 4) →
      st.video_queue_count ≥ VIDEO_QUEUE_SIZE - 1 →
      workerStep st pkt now = (st, false, none)) ∧
    ((workerRun 20 finiteNoAudioSt tenFrames 0).1.video_queue_count = 7 ∧
      (workerRun 20 finiteNoAudioSt tenFrames 0).2 = [1, 2, 3, 4, 5, 6, 7]) := by
  refine ⟨?_, by decide⟩
  intro st pkt now h1 h2 h3 h4 h5
  unfold workerStep
  rw [if_neg (by simp [h1]), if_neg (by simp [h2]), if_pos ⟨by simp [h3], h5, h4⟩]

/-- C2 witness: the gate theorem applied to a gated concrete state (7
of 8 slots used, no audio stream): the pending frame is not decoded
and the state does not change. -/
theorem C2_witness :
    workerStep { finiteNoAudioSt with video_queue_count := 7 } (Packet.video 8 8) 0 =
      ({ finiteNoAudioSt with video_queue_count := 7 }, false, none) :=
  C2_backpressure_gate.1 { finiteNoAudioSt with video_queue_count := 7 } (Packet.video 8 8) 0
    (by decide) (by decide) (by decide) (Or.inl (by decide)) (by decide)

/-- C2 counterexample: with an audio stream present and its ring below
75 percent full, the gate never engages on finite media: after eight
back-to-back decodes the queue is full (count 8), yet the ninth frame
IS decoded (packet consumed, decode log reports pts 9) while the queue
is full, and it appears in no queue slot afterwards — it was silently
dropped, contradicting the claim that the gate ensures no decode while
full and no silent drop. -/
theorem C2_counterexample :
    (workerRun 8 finiteAudioSt tenFrames 0).1.video_queue_count = VIDEO_QUEUE_SIZE ∧
    (workerStep (workerRun 8 finiteAudioSt tenFrames 0).1 (Packet.video 9 9) 0).2.1 = true ∧
    (workerStep (workerRun 8 finiteAudioSt tenFrames 0).1 (Packet.video 9 9) 0).2.2 = some 9 ∧
    (workerStep (workerRun 8 finiteAudioSt tenFrames 0).1
        (Packet.video 9 9) 0).1.video_queue_count = VIDEO_QUEUE_SIZE ∧
    (∀ i : Fin 8,
      ((workerStep (workerRun 8 finiteAudioSt tenFrames 0).1
          (Packet.video 9 9) 0).1.video_queue (i : Nat)).pts ≠ 9) := by
  decide

/-- A finite playing session with a registered callback and two queued
frames, the head one (pts 0) due at clock position 0. -/
def vodDueSt : PlayerState :=
  pushSeq (play (openedState false true false true 2 2) 0).1 [0, 1]

/-- A finite playing session whose single queued frame (pts 5) is far
in the future at clock position 0. -/
def vodEarlySt : PlayerState :=
  pushSeq (play (openedState false true false true 2 2) 0).1 [5]

/-- C3: in finite (VOD) mode a pump tick surfaces at most one frame,
however many are overdue; and on a queue whose head entry is valid it
peeks that oldest entry, compares its pts against the clock position,
and either (due, time_diff at most 16 ms) dequeues exactly that entry
into the display slot — marking ready, advancing current/video pts,
firing the callback if registered, and stopping — or (not due) stops
consuming nothing and changing nothing. -/
theorem C3_vod_one_frame_per_tick :
    (∀ (st : PlayerState) (dt : ℚ) (now : Int), st.is_live = false →
      (update st dt now).2.1 = 0 ∨ (update st dt now).2.1 = 1) ∧
    (∀ (st : PlayerState) (dt : ℚ) (now : Int),
      st.is_live = false → st.state = PState.playing →
      0 < st.video_queue_count →
      (st.video_queue st.video_queue_read.toNat).valid = true →
      ((st.video_queue st.video_queue_read.toNat).pts - playbackTime st now ≤ (16 : ℚ) / 1000 →
        update st dt now =
          ({ st with
              display_buffer := some (st.video_queue st.video_queue_read.toNat).data,
              display_width := (st.video_queue st.video_queue_read.toNat).width,
              display_height := (st.video_queue st.video_queue_read.toNat).height,
              display_stride := (st.video_queue st.video_queue_read.toNat).stride,
              display_pts := (st.video_queue st.video_queue_read.toNat).pts,
              display_ready := true,
              video_queue := Function.update st.video_queue st.video_queue_read.toNat
                { st.video_queue st.video_queue_read.toNat with valid := false },
              video_queue_read := (st.video_queue_read + 1) % VIDEO_QUEUE_SIZE,
              video_queue_count := st.video_queue_count - 1,
              video_pts := (st.video_queue st.video_queue_read.toNat).pts,
              current_pts := (st.video_queue st.video_queue_read.toNat).pts },
            1,
            if st.video_callback then [(st.video_queue st.video_queue_read.toNat).pts]
            else [])) ∧
      ((16 : ℚ) / 1000 < (st.video_queue st.video_queue_read.toNat).pts - playbackTime st now →
        update st dt now = (st, 0, []))) := by
  constructor
  · intro st dt now hlive
    unfold update
    split_ifs with hgate hl
    · exact Or.inl rfl
    · exact absurd hl (by simp [hlive])
    · exact (vodLoop_basic st.video_queue_count.toNat st (playbackTime st now)).2.2.1
  · intro st dt now hlive hstate hcount hvalid
    obtain ⟨k, hk⟩ : ∃ k : Nat, st.video_queue_count.toNat = k + 1 :=
      ⟨st.video_queue_count.toNat - 1, by omega⟩
    have hunf : update st dt now = vodLoop (k + 1) st (playbackTime st now) := by
      unfold update
      rw [if_neg (by simp [hstate]), if_neg (by simp [hlive]), hk]
    constructor
    · intro hdue
      rw [hunf]
      simp only [vodLoop]
      rw [if_pos hcount, if_neg (by simp [hvalid]), if_pos hdue]
    · intro hlate
      rw [hunf]
      simp only [vodLoop]
      rw [if_pos hcount, if_neg (by simp [hvalid]), if_neg (not_le.mpr hlate)]

/-- C3 witness: the theorem evaluated on a due head frame (surfaced,
one frame, callback fired with its pts) and on an early head frame
(nothing consumed). -/
theorem C3_witness :
    (update vodDueSt 0 0).2.1 = 1 ∧
    update vodEarlySt 0 0 = (vodEarlySt, 0, []) := by
  have hplayDue : playbackTime vodDueSt 0 = 0 := by
    unfold playbackTime
    rw [show vodDueSt.start_pts = 0 by decide,
      show vodDueSt.playback_start_time = 0 by decide,
      show vodDueSt.speed = 1 by decide]
    norm_num
  have hplayEarly : playbackTime vodEarlySt 0 = 0 := by
    unfold playbackTime
    rw [show vodEarlySt.start_pts = 0 by decide,
      show vodEarlySt.playback_start_time = 0 by decide,
      show vodEarlySt.speed = 1 by decide]
    norm_num
  constructor
  · rw [(C3_vod_one_frame_per_tick.2 vodDueSt 0 0 (by decide) (by decide) (by decide)
      (by decide)).1 (by
        rw [show (vodDueSt.video_queue vodDueSt.video_queue_read.toNat).pts = 0 by decide,
          hplayDue]
        norm_num)]
  · exact (C3_vod_one_frame_per_tick.2 vodEarlySt 0 0 (by decide) (by decide) (by decide)
      (by decide)).2 (by
        rw [show (vodEarlySt.video_queue vodEarlySt.video_queue_read.toNat).pts = 5 by decide,
          hplayEarly]
        norm_num)

/-! Exact characterization of the live drain loop on an all-valid
queue, used for the live-pump claim. -/

/-- The cursor/count advance at the end of each drain iteration
(lines 1161-1162). -/
def advanceRead (st : PlayerState) : PlayerState :=
  { st with
    video_queue_read := (st.video_queue_read + 1) % VIDEO_QUEUE_SIZE,
    video_queue_count := st.video_queue_count - 1 }

@[simp] theorem advanceRead_read (st : PlayerState) :
    (advanceRead st).video_queue_read = (st.video_queue_read + 1) % 8 := rfl

@[simp] theorem advanceRead_count (st : PlayerState) :
    (advanceRead st).video_queue_count = st.video_queue_count - 1 := rfl

@[simp] theorem advanceRead_queue (st : PlayerState) :
    (advanceRead st).video_queue = st.video_queue := rfl

@[simp] theorem advanceRead_cb (st : PlayerState) :
    (advanceRead st).video_callback = st.video_callback := rfl

@[simp] theorem invalidateSlot_read (st : PlayerState) (j : Int) :
    (invalidateSlot st j).video_queue_read = st.video_queue_read := rfl

@[simp] theorem invalidateSlot_count (st : PlayerState) (j : Int) :
    (invalidateSlot st j).video_queue_count = st.video_queue_count := rfl

@[simp] theorem invalidateSlot_cb (st : PlayerState) (j : Int) :
    (invalidateSlot st j).video_callback = st.video_callback := rfl

@[simp] theorem invalidateSlot_queue (st : PlayerState) (j : Int) :
    (invalidateSlot st j).video_queue =
      Function.update st.video_queue j.toNat
        { st.video_queue j.toNat with valid := false } := rfl

theorem liveDrainLoop_succ_none (n : Nat) (st : PlayerState)
    (hc : st.video_queue_count > 0)
    (hval : (st.video_queue st.video_queue_read.toNat).valid = true) :
    liveDrainLoop (n + 1) st none =
      liveDrainLoop n (advanceRead st) (some st.video_queue_read) := by
  have hstep : liveDrainStep st none = (st, some st.video_queue_read) := by
    unfold liveDrainStep
    rw [if_pos hval]
  simp only [liveDrainLoop]
  rw [if_pos hc, hstep]
  rfl

theorem liveDrainLoop_succ_some (n : Nat) (st : PlayerState) (j : Int)
    (hc : st.video_queue_count > 0)
    (hval : (st.video_queue st.video_queue_read.toNat).valid = true) :
    liveDrainLoop (n + 1) st (some j) =
      liveDrainLoop n (advanceRead (invalidateSlot st j)) (some st.video_queue_read) := by
  have hstep : liveDrainStep st (some j) =
      (invalidateSlot st j, some st.video_queue_read) := by
    unfold liveDrainStep
    rw [if_pos hval]
  simp only [liveDrainLoop]
  rw [if_pos hc, hstep]
  rfl

/-- On an all-valid segment of length f (1 ≤ f ≤ 8) the drain loop
empties the queue, retains exactly the most recently produced slot
(read + f - 1 mod 8), and leaves that slot untouched. -/
theorem liveDrainLoop_drain : ∀ (f : Nat) (st : PlayerState) (newest : Option Int),
    st.video_queue_count = (f : Int) → 0 < f → f ≤ 8 →
    0 ≤ st.video_queue_read → st.video_queue_read < 8 →
    (∀ k : Nat, k < f →
      (st.video_queue ((st.video_queue_read + (k : Int)) % 8).toNat).valid = true) →
    (∀ j : Int, newest = some j → 0 ≤ j ∧ j < 8 ∧
      ∀ k : Nat, k < f → j ≠ (st.video_queue_read + (k : Int)) % 8) →
    (liveDrainLoop f st newest).1.video_queue_count = 0 ∧
    (liveDrainLoop f st newest).2 =
      some ((st.video_queue_read + (f : Int) - 1) % 8) ∧
    (liveDrainLoop f st newest).1.video_queue
        ((st.video_queue_read + (f : Int) - 1) % 8).toNat =
      st.video_queue ((st.video_queue_read + (f : Int) - 1) % 8).toNat ∧
    (liveDrainLoop f st newest).1.video_callback = st.video_callback := by
  intro f
  induction f with
  | zero => intro st newest _ h0 _ _ _ _ _; omega
  | succ n ih =>
    intro st newest hc _ h8 hr0 hr8 hv hn
    have hcpos : st.video_queue_count > 0 := by omega
    have hvalid0 : (st.video_queue st.video_queue_read.toNat).valid = true := by
      have h := hv 0 (by omega)
      rwa [show (st.video_queue_read + ((0 : Nat) : Int)) % 8 = st.video_queue_read by
        push_cast; omega] at h
    cases n with
    | zero =>
      have hone : (st.video_queue_read + ((0 + 1 : Nat) : Int) - 1) % 8 =
          st.video_queue_read := by
        push_cast; omega
      cases newest with
      | none =>
        rw [liveDrainLoop_succ_none 0 st hcpos hvalid0]
        refine ⟨show st.video_queue_count - 1 = 0 by omega, ?_, ?_, rfl⟩
        · rw [hone]
          rfl
        · rw [hone]
          rfl
      | some j =>
        obtain ⟨hj0, hj8, hjk⟩ := hn j rfl
        have hjr : j ≠ (st.video_queue_read + ((0 : Nat) : Int)) % 8 := hjk 0 (by omega)
        rw [liveDrainLoop_succ_some 0 st j hcpos hvalid0]
        refine ⟨show st.video_queue_count - 1 = 0 by omega, ?_, ?_, rfl⟩
        · rw [hone]
          rfl
        · rw [hone]
          show Function.update st.video_queue j.toNat
              { st.video_queue j.toNat with valid := false } st.video_queue_read.toNat =
            st.video_queue st.video_queue_read.toNat
          refine Function.update_noteq ?_ _ _
          push_cast at hjr
          omega
    | succ m =>
      have hidx : ((st.video_queue_read + 1) % 8 + ((m + 1 : Nat) : Int) - 1) % 8 =
          (st.video_queue_read + ((m + 1 + 1 : Nat) : Int) - 1) % 8 := by
        push_cast; omega
      cases newest with
      | none =>
        rw [liveDrainLoop_succ_none (m + 1) st hcpos hvalid0]
        obtain ⟨i1, i2, i3, i4⟩ := ih (advanceRead st) (some st.video_queue_read)
          (show st.video_queue_count - 1 = ((m + 1 : Nat) : Int) by push_cast at hc ⊢; omega)
          (by omega) (by omega)
          (show (0 : Int) ≤ (st.video_queue_read + 1) % 8 by omega)
          (show (st.video_queue_read + 1) % 8 < 8 by omega)
          (by
            intro k hk
            show (st.video_queue
              (((st.video_queue_read + 1) % 8 + (k : Int)) % 8).toNat).valid = true
            rw [show ((st.video_queue_read + 1) % 8 + (k : Int)) % 8 =
                (st.video_queue_read + ((k + 1 : Nat) : Int)) % 8 by push_cast; omega]
            exact hv (k + 1) (by omega))
          (by
            intro j hj
            injection hj with hj
            subst hj
            refine ⟨hr0, hr8, ?_⟩
            intro k hk
            show st.video_queue_read ≠ ((st.video_queue_read + 1) % 8 + (k : Int)) % 8
            have hk8 : k + 1 ≤ 7 := by omega
            omega)
        refine ⟨i1, ?_, ?_, i4⟩
        · rw [i2]
          congr 1
        · have i3' : (liveDrainLoop (m + 1) (advanceRead st) (some st.video_queue_read)).1.video_queue
              (((st.video_queue_read + 1) % 8 + ((m + 1 : Nat) : Int) - 1) % 8).toNat =
              st.video_queue
                (((st.video_queue_read + 1) % 8 + ((m + 1 : Nat) : Int) - 1) % 8).toNat := i3
          rw [hidx] at i3'
          exact i3'
      | some j =>
        obtain ⟨hj0, hj8, hjk⟩ := hn j rfl
        rw [liveDrainLoop_succ_some (m + 1) st j hcpos hvalid0]
        obtain ⟨i1, i2, i3, i4⟩ := ih (advanceRead (invalidateSlot st j)) (some st.video_queue_read)
          (show st.video_queue_count - 1 = ((m + 1 : Nat) : Int) by push_cast at hc ⊢; omega)
          (by omega) (by omega)
          (show (0 : Int) ≤ (st.video_queue_read + 1) % 8 by omega)
          (show (st.video_queue_read + 1) % 8 < 8 by omega)
          (by
            intro k hk
            show ((Function.update st.video_queue j.toNat
                { st.video_queue j.toNat with valid := false })
                (((st.video_queue_read + 1) % 8 + (k : Int)) % 8).toNat).valid = true
            rw [show ((st.video_queue_read + 1) % 8 + (k : Int)) % 8 =
                (st.video_queue_read + ((k + 1 : Nat) : Int)) % 8 by push_cast; omega]
            rw [Function.update_noteq (by
              have := hjk (k + 1) (by omega)
              push_cast at this ⊢
              omega)]
            exact hv (k + 1) (by omega))
          (by
            intro jj hj
            injection hj with hj
            subst hj
            refine ⟨hr0, hr8, ?_⟩
            intro k hk
            show st.video_queue_read ≠ ((st.video_queue_read + 1) % 8 + (k : Int)) % 8
            have hk8 : k + 1 ≤ 7 := by omega
            omega)
        refine ⟨i1, ?_, ?_, i4⟩
        · rw [i2]
          congr 1
        · have i3' : (liveDrainLoop (m + 1) (advanceRead (invalidateSlot st j))
                (some st.video_queue_read)).1.video_queue
              (((st.video_queue_read + 1) % 8 + ((m + 1 : Nat) : Int) - 1) % 8).toNat =
              (Function.update st.video_queue j.toNat
                { st.video_queue j.toNat with valid := false })
                (((st.video_queue_read + 1) % 8 + ((m + 1 : Nat) : Int) - 1) % 8).toNat := i3
          rw [hidx] at i3'
          rw [i3', Function.update_noteq (by
            have := hjk (m + 1) (by omega)
            push_cast at this ⊢
            omega)]

/-- A live playing session with a registered callback and two valid
queued frames (pts 1 then 2). -/
def liveTwoSt : PlayerState :=
  pushSeq (play (openedState true true false true 2 2) 0).1 [1, 2]

/-- C4: in live mode, one pump invocation on a queue holding N valid
frames (1 ≤ N ≤ 8, all slots in the occupied range valid) drains the
whole queue to count 0, surfaces exactly one frame — the most recently
produced entry, at slot read + N - 1 mod 8 — into the display slot
(ready flag set, current/video pts advanced to its pts), reports one
frame ready, and the callback (if registered) fires once, only with
that entry: the other N - 1 entries are discarded undelivered. -/
theorem C4_live_pump_surfaces_newest_only (st : PlayerState) (dt : ℚ) (now : Int)
    (hlive : st.is_live = true) (hstate : st.state = PState.playing)
    (hr0 : 0 ≤ st.video_queue_read) (hr8 : st.video_queue_read < 8)
    (hc0 : 0 < st.video_queue_count) (hc8 : st.video_queue_count ≤ 8)
    (hvalid : ∀ k : Fin 8, ((k : Nat) : Int) < st.video_queue_count →
      (st.video_queue ((st.video_queue_read + ((k : Nat) : Int)) % 8).toNat).valid = true) :
    (update st dt now).1.video_queue_count = 0 ∧
    (update st dt now).2.1 = 1 ∧
    (update st dt now).1.display_buffer =
      some (st.video_queue
        ((st.video_queue_read + st.video_queue_count - 1) % 8).toNat).data ∧
    (update st dt now).1.display_pts =
      (st.video_queue ((st.video_queue_read + st.video_queue_count - 1) % 8).toNat).pts ∧
    (update st dt now).1.display_ready = true ∧
    (update st dt now).1.video_pts =
      (st.video_queue ((st.video_queue_read + st.video_queue_count - 1) % 8).toNat).pts ∧
    (update st dt now).1.current_pts =
      (st.video_queue ((st.video_queue_read + st.video_queue_count - 1) % 8).toNat).pts ∧
    (update st dt now).2.2 =
      (if st.video_callback then
        [(st.video_queue ((st.video_queue_read + st.video_queue_count - 1) % 8).toNat).pts]
       else []) := by
  obtain ⟨d1, d2, d3, d4⟩ := liveDrainLoop_drain st.video_queue_count.toNat st none
    (by omega) (by omega) (by omega) hr0 hr8
    (fun k hk => hvalid ⟨k, by omega⟩ (by push_cast; omega))
    (fun j hj => Option.noConfusion hj)
  have hidx : (st.video_queue_read + (st.video_queue_count.toNat : Int) - 1) % 8 =
      (st.video_queue_read + st.video_queue_count - 1) % 8 := by omega
  rw [hidx] at d2 d3
  have hupd : update st dt now =
      liveDisplay (liveDrainLoop st.video_queue_count.toNat st none).1
        (liveDrainLoop st.video_queue_count.toNat st none).2 := by
    unfold update
    rw [if_neg (by simp [hstate]), if_pos (by simp [hlive])]
  rw [hupd, d2]
  simp only [liveDisplay]
  rw [d3, d4]
  refine ⟨d1, ?_, ?_, ?_, ?_, ?_, ?_, ?_⟩ <;> trivial

/-- C4 witness: two live frames queued; the pump drains both, surfaces
only the newest (pts 2), and the callback log holds exactly that pts. -/
theorem C4_witness :
    (update liveTwoSt 0 0).1.video_queue_count = 0 ∧
    (update liveTwoSt 0 0).2.1 = 1 ∧
    (update liveTwoSt 0 0).1.display_pts =
      (liveTwoSt.video_queue
        ((liveTwoSt.video_queue_read + liveTwoSt.video_queue_count - 1) % 8).toNat).pts ∧
    (update liveTwoSt 0 0).2.2 =
      (if liveTwoSt.video_callback then
        [(liveTwoSt.video_queue
          ((liveTwoSt.video_queue_read + liveTwoSt.video_queue_count - 1) % 8).toNat).pts]
       else []) := by
  obtain ⟨a1, a2, _, a4, _, _, _, a8⟩ :=
    C4_live_pump_surfaces_newest_only liveTwoSt 0 0 (by decide) (by decide) (by decide)
      (by decide) (by decide) (by decide) (by decide)
  exact ⟨a1, a2, a4, a8⟩

/-- C10 witness: a paused player with an overdue queued frame surfaces
nothing. -/
theorem C10_witness :
    update { pushSeq liveSt [1, 2, 3] with state := PState.paused } 0 99 =
      ({ pushSeq liveSt [1, 2, 3] with state := PState.paused }, 0, []) :=
  C10_update_gated { pushSeq liveSt [1, 2, 3] with state := PState.paused } 0 99
    (by decide) (by decide)

end Prism
